import Mathlib

deriving instance DecidableEq for Except

/-!
Verification of the aforth interpreter (src/lib.rs).

This file shallowly embeds the interpreter in Lean 4 and proves/refutes the
frozen claims about it.  The embedding follows `src/lib.rs` definition by
definition:

* `Word`, `Token`, `Error` mirror the Rust enums of the same names.
* The dictionary (`HashMap<String, Vec<Token>>` in Rust) is modelled as an
  association list in which inserting conses a new binding in front; lookup
  takes the first binding, which is observationally the same as HashMap
  insert/get.
* Machine integers (`i32`) are modelled as `Int`; overflow/wrapping is made
  explicit with `wrap32`.  Arithmetic semantics follow the Rust release
  profile (overflow-checks off): `+`, `-`, `*` wrap; `/` and `%` abort the
  process ("panic") when the divisor is zero or on `i32::MIN / -1` /
  `i32::MIN % -1`, in every profile.  A Rust panic/abort is modelled by the
  `crash` constructor of `EvalRes`/`Outcome`: it is not a returned error
  value.
* `usize` (target of the `as usize` cast in the `spaces` primitive) is
  modelled as 64-bit, the usual target width.
-/

namespace AForth

/-- The `Word` enum of lib.rs (lines 225-239): the closed set of primitive
operations. -/
inductive Word where
  | Dot
  | Drop
  | Dup
  | Emit
  | Minus
  | Mod
  | Plus
  | Rot
  | Slash
  | SlashMod
  | Spaces
  | Star
  | Swap
deriving DecidableEq, Repr

/-- The `Token` enum of lib.rs (lines 241-245): a primitive operation or a
signed 32-bit literal.  There is no constructor referring to a dictionary
name: stored definitions are fully resolved by construction. -/
inductive Token where
  | Builtin (w : Word)
  | Number (n : Int)
deriving DecidableEq, Repr

/-- The `Error` enum of lib.rs (lines 206-210).  `UnicodeInvalid` carries the
`u32` value, modelled as `Nat`. -/
inductive Error where
  | Static (msg : String)
  | UndefinedWord (w : String)
  | UnicodeInvalid (v : Nat)
deriving DecidableEq, Repr

/-- The dictionary: `HashMap<String, Vec<Token>>` modelled as an association
list (newest binding first). -/
abbrev Dict := List (String × List Token)

/-- Lookup in the dictionary: first binding with the given key wins, which
matches `HashMap::get` when `dictInsert` conses the newest binding. -/
def dictLookup : Dict → String → Option (List Token)
  | [], _ => none
  | (k, v) :: d, s => if k = s then some v else dictLookup d s

/-- `HashMap::insert` (lib.rs line 77): the new binding shadows any older
binding with the same name. -/
def dictInsert (d : Dict) (name : String) (ts : List Token) : Dict :=
  (name, ts) :: d

/-- Rust `u8::is_ascii_whitespace`, the separator class used by
`split_ascii_whitespace`: space, tab, line feed, form feed, carriage
return. -/
def isAsciiWhitespace (c : Char) : Bool :=
  c = ' ' || c = '\t' || c = '\n' || c = '\x0c' || c = '\r'

/-- Worker for `splitWords`: accumulates the current word (reversed) and
splits at ASCII whitespace, discarding empty words. -/
def splitWordsAux : List Char → List Char → List (List Char)
  | [], [] => []
  | [], acc => [acc.reverse]
  | c :: cs, acc =>
    if isAsciiWhitespace c then
      match acc with
      | [] => splitWordsAux cs []
      | _ => acc.reverse :: splitWordsAux cs []
    else
      splitWordsAux cs (c :: acc)

/-- Rust `str::split_ascii_whitespace`, materialised as a list of words. -/
def splitWords (s : String) : List String :=
  (splitWordsAux s.data []).map String.mk

/-- Value of a list of decimal digit characters. -/
def digitsVal (l : List Char) : Nat :=
  l.foldl (fun acc c => acc * 10 + (c.toNat - 48)) 0

/-- The integer denoted by a decimal numeral: an optional `+`/`-` sign
followed by one or more ASCII digits (the grammar accepted by Rust's
`i32::from_str`), with no range restriction. -/
def decimalValue? (s : String) : Option Int :=
  match s.data with
  | [] => none
  | c :: cs =>
    if c = '+' then
      if cs ≠ [] ∧ cs.all Char.isDigit then some (digitsVal cs) else none
    else if c = '-' then
      if cs ≠ [] ∧ cs.all Char.isDigit then some (-(digitsVal cs : Int)) else none
    else
      if (c :: cs).all Char.isDigit then some (digitsVal (c :: cs)) else none

/-- Rust `str::parse::<i32>` (lib.rs line 191): the numeral's value, failing
when the word is not a signed decimal numeral or its value does not fit in
a signed 32-bit integer. -/
def parseI32 (s : String) : Option Int :=
  match decimalValue? s with
  | some v => if -2147483648 ≤ v ∧ v ≤ 2147483647 then some v else none
  | none => none

/-- The thirteen literal match arms of `Machine::tokenize` (lib.rs lines
178-190), factored as a partial name table: an exact primitive-name match
produces the corresponding `Word`. -/
def primOf? (s : String) : Option Word :=
  if s = "." then some .Dot
  else if s = "-" then some .Minus
  else if s = "+" then some .Plus
  else if s = "*" then some .Star
  else if s = "/" then some .Slash
  else if s = "mod" then some .Mod
  else if s = "/mod" then some .SlashMod
  else if s = "emit" then some .Emit
  else if s = "drop" then some .Drop
  else if s = "dup" then some .Dup
  else if s = "rot" then some .Rot
  else if s = "spaces" then some .Spaces
  else if s = "swap" then some .Swap
  else none

/-- The fixed primitive name table, for stating precedence properties. -/
def primNames : List String :=
  [".", "-", "+", "*", "/", "mod", "/mod", "emit", "drop", "dup", "rot",
   "spaces", "swap"]

/-- Resolution of one word (the body of the `for` loop in `Machine::tokenize`,
lib.rs lines 177-200): primitive table first, then integer literal, then
dictionary splice, otherwise an undefined-word error. -/
def tokenizeWord (d : Dict) (s : String) : Except Error (List Token) :=
  match primOf? s with
  | some w => .ok [.Builtin w]
  | none =>
    match parseI32 s with
    | some n => .ok [.Number n]
    | none =>
      match dictLookup d s with
      | some ts => .ok ts
      | none => .error (.UndefinedWord s)

/-- `Machine::tokenize` (lib.rs lines 168-203): resolve each word in order,
concatenating the produced tokens, failing at the first unresolvable word. -/
def tokenize (d : Dict) : List String → Except Error (List Token)
  | [] => .ok []
  | s :: ss =>
    match tokenizeWord d s with
    | .error e => .error e
    | .ok ts =>
      match tokenize d ss with
      | .error e => .error e
      | .ok rest => .ok (ts ++ rest)

/-- Wrapping of a mathematical integer into the signed 32-bit range: the
release-profile semantics of Rust `+`, `-`, `*` on `i32`. -/
def wrap32 (n : Int) : Int :=
  (n + 2147483648) % 4294967296 - 2147483648

/-- The `as usize` cast of an `i32` (lib.rs line 154) on a 64-bit target:
sign-extension reinterpreted as an unsigned 64-bit value. -/
def i32ToUsize (n : Int) : Nat :=
  (n % 18446744073709551616).toNat

/-- Validity test of `char::from_u32`: below the surrogate range, or between
the surrogates and the maximum code point. -/
def isValidCodePoint (n : Nat) : Bool :=
  n < 55296 || (57343 < n && n < 1114112)

/-- Result of running tokens against a stack (top of stack first in the
list): normal completion with the final stack and accumulated output, a
returned `Error` (carrying the stack as already mutated, since the Rust code
pops in place before failing), or a Rust panic/abort (`crash`), which is not
a returned value at all. -/
inductive EvalRes where
  | ok (stack : List Int) (out : String)
  | err (e : Error) (stack : List Int)
  | crash (msg : String) (stack : List Int)
deriving DecidableEq, Repr

/-- One step of the `try_fold` in `Machine::eval_expr` (lib.rs lines
115-165): execute a single token against the stack and output accumulator.
The stack is a list with its head as top of stack, so Rust `push` is cons
and `pop` takes the head.  Pops performed before a failure stay performed,
exactly as the `pop!` macro mutates `self.stack` in place.  Division and
remainder crash (Rust panic) on a zero divisor and on `i32::MIN` with `-1`;
there is no zero-divisor check in the source. -/
def evalToken (t : Token) (stack : List Int) (out : String) : EvalRes :=
  match t with
  | .Number n => .ok (n :: stack) out
  | .Builtin .Dot =>
    match stack with
    | v :: st => .ok st (out ++ toString v ++ " ")
    | [] => .err (.Static "dot: stack underflow") []
  | .Builtin .Drop =>
    match stack with
    | _ :: st => .ok st out
    | [] => .err (.Static "drop: stack underflow") []
  | .Builtin .Dup =>
    match stack with
    | v :: st => .ok (v :: v :: st) out
    | [] => .err (.Static "dup: stack underflow") []
  | .Builtin .Minus =>
    match stack with
    | o :: a :: st => .ok (wrap32 (a - o) :: st) out
    | _ => .err (.Static "minus: stack underflow") []
  | .Builtin .Mod =>
    match stack with
    | o :: a :: st =>
      if o = 0 then
        .crash "attempt to calculate the remainder with a divisor of zero" st
      else if a = -2147483648 ∧ o = -1 then
        .crash "attempt to calculate the remainder with overflow" st
      else
        .ok (Int.tmod a o :: st) out
    | _ => .err (.Static "mod: stack underflow") []
  | .Builtin .Rot =>
    match stack with
    | a :: b :: c :: st => .ok (c :: a :: b :: st) out
    | _ => .err (.Static "rot: stack underflow") stack
  | .Builtin .Plus =>
    match stack with
    | o :: a :: st => .ok (wrap32 (a + o) :: st) out
    | _ => .err (.Static "plus: stack underflow") []
  | .Builtin .Slash =>
    match stack with
    | o :: a :: st =>
      if o = 0 then
        .crash "attempt to divide by zero" st
      else if a = -2147483648 ∧ o = -1 then
        .crash "attempt to divide with overflow" st
      else
        .ok (Int.tdiv a o :: st) out
    | _ => .err (.Static "slash: stack underflow") []
  | .Builtin .SlashMod =>
    match stack with
    | b :: a :: st =>
      if b = 0 then
        .crash "attempt to calculate the remainder with a divisor of zero" st
      else if a = -2147483648 ∧ b = -1 then
        .crash "attempt to calculate the remainder with overflow" st
      else
        .ok (Int.tdiv a b :: Int.tmod a b :: st) out
    | _ => .err (.Static "slash-mod: stack underflow") []
  | .Builtin .Star =>
    match stack with
    | o :: a :: st => .ok (wrap32 (a * o) :: st) out
    | _ => .err (.Static "star: stack underflow") []
  | .Builtin .Emit =>
    match stack with
    | v :: st =>
      if v < 0 then .err (.Static "emit: out of bounds") st
      else if isValidCodePoint v.toNat then
        .ok st (out ++ String.singleton (Char.ofNat v.toNat) ++ " ")
      else .err (.UnicodeInvalid v.toNat) st
    | [] => .err (.Static "emit: stack underflow") []
  | .Builtin .Spaces =>
    match stack with
    | v :: st =>
      .ok st (out ++ String.mk (List.replicate (i32ToUsize v) ' ') ++ " ")
    | [] => .err (.Static "spaces: stack underflow") []
  | .Builtin .Swap =>
    match stack with
    | a :: b :: st => .ok (b :: a :: st) out
    | _ => .err (.Static "swap: stack underflow") []

/-- The `try_fold` of `Machine::eval_expr`: run the tokens in order,
stopping at the first failing token. -/
def evalTokens : List Token → List Int → String → EvalRes
  | [], stack, out => .ok stack out
  | t :: ts, stack, out =>
    match evalToken t stack out with
    | .ok st o => evalTokens ts st o
    | .err e st => .err e st
    | .crash m st => .crash m st

/-- Result of a whole `eval` call: `Ok(output)`, a returned `Err(..)`, or a
Rust panic/abort. -/
inductive Outcome where
  | ok (out : String)
  | err (e : Error)
  | crash (msg : String)
deriving DecidableEq, Repr

/-- The `Machine` struct of lib.rs (lines 20-23). -/
structure Machine where
  dictionary : Dict
  stack : List Int
deriving DecidableEq, Repr

/-- `Machine::eval_expr` (lib.rs lines 81-166): tokenize the whole phrase,
then fold the tokens over the stack.  A tokenize failure leaves the machine
untouched; a token failure keeps the stack mutations already performed. -/
def Machine.eval_expr (m : Machine) (phrase : String) : Outcome × Machine :=
  match tokenize m.dictionary (splitWords phrase) with
  | .error e => (.err e, m)
  | .ok ts =>
    match evalTokens ts m.stack "" with
    | .ok st out => (.ok out, { m with stack := st })
    | .err e st => (.err e, { m with stack := st })
    | .crash msg st => (.crash msg, { m with stack := st })

/-- `Machine::eval_def` (lib.rs lines 71-79): the first word after the
marker is the name, the tokenized remainder is the body; fails when no name
is present or the body does not tokenize, and only on success inserts the
entry.  The stack is never touched. -/
def Machine.eval_def (m : Machine) (phrase : String) : Except Error Machine :=
  match splitWords phrase with
  | [] => .error (.Static "no name specified for definition")
  | name :: body =>
    match tokenize m.dictionary body with
    | .error e => .error e
    | .ok ts => .ok { m with dictionary := dictInsert m.dictionary name ts }

/-- `Machine::eval` (lib.rs lines 63-69): `strip_prefix(':')` routes to
definition handling (with empty output on success), otherwise to expression
evaluation. -/
def Machine.eval (m : Machine) (phrase : String) : Outcome × Machine :=
  if phrase.data.head? = some ':' then
    match m.eval_def (String.mk phrase.data.tail) with
    | .ok m' => (.ok "", m')
    | .error e => (.err e, m)
  else
    m.eval_expr phrase

/-- `Machine::default` (lib.rs lines 25-53): the bootstrap dictionary with
`space` (32 emit), `cr` (13 emit 10 emit) and `over` (swap dup rot swap),
and an empty stack. -/
def Machine.default : Machine :=
  { dictionary :=
      [("space", [Token.Number 32, Token.Builtin Word.Emit]),
       ("cr", [Token.Number 13, Token.Builtin Word.Emit,
               Token.Number 10, Token.Builtin Word.Emit]),
       ("over", [Token.Builtin Word.Swap, Token.Builtin Word.Dup,
                 Token.Builtin Word.Rot, Token.Builtin Word.Swap])],
    stack := [] }

/-- A word that resolves to nothing: not a primitive name, not an integer
literal, not a dictionary entry. -/
def Unresolvable (d : Dict) (s : String) : Prop :=
  primOf? s = none ∧ parseI32 s = none ∧ dictLookup d s = none

instance (d : Dict) (s : String) : Decidable (Unresolvable d s) := by
  unfold Unresolvable; infer_instance

/-! Helper lemmas shared by the claim theorems. -/

/-- Length of a string built from an explicit character list. -/
theorem strLength_mk (l : List Char) : (String.mk l).length = l.length := rfl

/-- A word the primitive name table resolves is one of the thirteen
primitive names. -/
theorem primOf?_mem {s : String} {w : Word} (h : primOf? s = some w) :
    s ∈ primNames := by
  unfold primOf? at h
  by_cases h1 : s = "."
  · subst h1; decide
  rw [if_neg h1] at h
  by_cases h2 : s = "-"
  · subst h2; decide
  rw [if_neg h2] at h
  by_cases h3 : s = "+"
  · subst h3; decide
  rw [if_neg h3] at h
  by_cases h4 : s = "*"
  · subst h4; decide
  rw [if_neg h4] at h
  by_cases h5 : s = "/"
  · subst h5; decide
  rw [if_neg h5] at h
  by_cases h6 : s = "mod"
  · subst h6; decide
  rw [if_neg h6] at h
  by_cases h7 : s = "/mod"
  · subst h7; decide
  rw [if_neg h7] at h
  by_cases h8 : s = "emit"
  · subst h8; decide
  rw [if_neg h8] at h
  by_cases h9 : s = "drop"
  · subst h9; decide
  rw [if_neg h9] at h
  by_cases h10 : s = "dup"
  · subst h10; decide
  rw [if_neg h10] at h
  by_cases h11 : s = "rot"
  · subst h11; decide
  rw [if_neg h11] at h
  by_cases h12 : s = "spaces"
  · subst h12; decide
  rw [if_neg h12] at h
  by_cases h13 : s = "swap"
  · subst h13; decide
  rw [if_neg h13] at h
  exact Option.noConfusion h

/-- A word outside the primitive name table is not resolved by it. -/
theorem primOf?_eq_none {s : String} (h : s ∉ primNames) : primOf? s = none := by
  cases hq : primOf? s with
  | none => rfl
  | some w => exact absurd (primOf?_mem hq) h

/-- No primitive name is a decimal numeral. -/
theorem decimalValue?_primNames {s : String} (h : s ∈ primNames) :
    decimalValue? s = none := by
  simp only [primNames, List.mem_cons, List.not_mem_nil, or_false] at h
  rcases h with rfl | rfl | rfl | rfl | rfl | rfl | rfl | rfl | rfl | rfl | rfl | rfl | rfl <;>
    decide

/-- An unresolvable word makes single-word tokenization fail with an
undefined-word error carrying that word. -/
theorem tokenizeWord_of_unresolvable {d : Dict} {s : String} (h : Unresolvable d s) :
    tokenizeWord d s = .error (.UndefinedWord s) := by
  obtain ⟨h1, h2, h3⟩ := h
  unfold tokenizeWord
  rw [h1, h2, h3]

/-- A resolvable word tokenizes to some token sequence. -/
theorem tokenizeWord_ok_of_not_unresolvable {d : Dict} {s : String}
    (h : ¬ Unresolvable d s) : ∃ ts, tokenizeWord d s = .ok ts := by
  unfold tokenizeWord
  cases hp : primOf? s with
  | some w => exact ⟨_, rfl⟩
  | none =>
    cases hn : parseI32 s with
    | some n => exact ⟨_, rfl⟩
    | none =>
      cases hd : dictLookup d s with
      | some ts => exact ⟨_, rfl⟩
      | none => exact absurd ⟨hp, hn, hd⟩ h

/-- If any word in a list is unresolvable, tokenization of the list fails
with an undefined-word error carrying some unresolvable word. -/
theorem tokenize_err_of_unresolvable (d : Dict) (ws : List String)
    (h : ∃ w ∈ ws, Unresolvable d w) :
    ∃ w', Unresolvable d w' ∧ tokenize d ws = .error (.UndefinedWord w') := by
  induction ws with
  | nil => simp at h
  | cons s ss ih =>
    by_cases hs : Unresolvable d s
    · refine ⟨s, hs, ?_⟩
      unfold tokenize
      rw [tokenizeWord_of_unresolvable hs]
    · obtain ⟨w, hw, hwu⟩ := h
      rcases List.mem_cons.mp hw with rfl | hw'
      · exact absurd hwu hs
      · obtain ⟨w', hu', ht'⟩ := ih ⟨w, hw', hwu⟩
        obtain ⟨ts, hts⟩ := tokenizeWord_ok_of_not_unresolvable hs
        refine ⟨w', hu', ?_⟩
        unfold tokenize
        rw [hts, ht']

/-- Definition handling never touches the stack. -/
theorem eval_def_stack {m m' : Machine} {phrase : String}
    (h : m.eval_def phrase = .ok m') : m'.stack = m.stack := by
  unfold Machine.eval_def at h
  cases hs : splitWords phrase with
  | nil => rw [hs] at h; exact Except.noConfusion h
  | cons name body =>
    rw [hs] at h
    simp only [] at h
    cases ht : tokenize m.dictionary body with
    | error e => rw [ht] at h; exact Except.noConfusion h
    | ok ts =>
      rw [ht] at h
      simp only [] at h
      obtain rfl := (Except.ok.inj h).symm
      rfl

/-- A successful prefix of a token run followed by a failing token makes the
whole run fail at that token, with exactly the stack the failing token left
behind; the tokens after it never run. -/
theorem no_rollback_general :
    ∀ (ts₁ : List Token) (t : Token) (ts₂ : List Token) (st : List Int) (o : String)
      (st₁ : List Int) (o₁ : String) (e : Error) (st₂ : List Int),
      evalTokens ts₁ st o = .ok st₁ o₁ →
      evalToken t st₁ o₁ = .err e st₂ →
      evalTokens (ts₁ ++ t :: ts₂) st o = .err e st₂ := by
  intro ts₁
  induction ts₁ with
  | nil =>
    intro t ts₂ st o st₁ o₁ e st₂ h1 h2
    simp only [evalTokens] at h1
    obtain ⟨rfl, rfl⟩ := EvalRes.ok.inj h1
    simp only [List.nil_append, evalTokens, h2]
  | cons x xs ih =>
    intro t ts₂ st o st₁ o₁ e st₂ h1 h2
    simp only [List.cons_append, evalTokens] at h1 ⊢
    cases hx : evalToken x st o with
    | ok st' o' =>
      rw [hx] at h1
      exact ih t ts₂ st' o' st₁ o₁ e st₂ h1 h2
    | err e' st' => rw [hx] at h1; exact EvalRes.noConfusion h1
    | crash msg st' => rw [hx] at h1; exact EvalRes.noConfusion h1

/-! Claim theorems. -/

/-- C1: the claim says a zero divisor makes eval return a descriptive error
value.  The code has no zero-divisor check, so the Rust division/remainder
panics (process abort, modelled by `crash`): evaluating "1 0 /", "1 0 mod"
and "1 0 /mod" all crash rather than returning an error, and no result is
pushed. -/
theorem div_by_zero_crashes :
    (Machine.default.eval "1 0 /").1 = .crash "attempt to divide by zero" ∧
    (Machine.default.eval "1 0 mod").1
      = .crash "attempt to calculate the remainder with a divisor of zero" ∧
    (Machine.default.eval "1 0 /mod").1
      = .crash "attempt to calculate the remainder with a divisor of zero" ∧
    (Machine.default.eval "1 0 /").2.stack = [] := by
  refine ⟨by decide, by decide, by decide, by decide⟩

/-- C2: eager-inlining snapshot invariant, concretely: after defining
": a 1", then ": b a .", then redefining ": a 2", evaluating "b" still
outputs "1 " (and leaves the stack empty); the stored body of `b` is the
fully resolved [Number 1, Dot] while `a` now resolves to [Number 2]. -/
theorem snapshot_inlining_scenario :
    ((((Machine.default.eval ": a 1").2.eval ": b a .").2.eval ": a 2").2.eval "b").1
      = .ok "1 " ∧
    ((((Machine.default.eval ": a 1").2.eval ": b a .").2.eval ": a 2").2.eval "b").2.stack
      = [] ∧
    dictLookup (((Machine.default.eval ": a 1").2.eval ": b a .").2.eval ": a 2").2.dictionary "b"
      = some [Token.Number 1, Token.Builtin Word.Dot] ∧
    dictLookup (((Machine.default.eval ": a 1").2.eval ": b a .").2.eval ": a 2").2.dictionary "a"
      = some [Token.Number 2] := by
  refine ⟨by decide, by decide, by decide, by decide⟩

/-- C3: tokenizer resolution precedence.  A word in the fixed primitive name
table resolves to its builtin token no matter what the dictionary holds (so
a dictionary entry with a primitive name is never consulted); otherwise a
word parsing as a 32-bit integer becomes a Number token even when a
dictionary entry with that name exists; a word matching none of the three
fails with an undefined-word error carrying the word text. -/
theorem tokenizer_precedence (d₁ d₂ : Dict) (s : String) :
    (s ∈ primNames →
      tokenizeWord d₁ s = tokenizeWord d₂ s ∧
      ∃ w, tokenizeWord d₁ s = .ok [.Builtin w]) ∧
    (s ∉ primNames → ∀ n, parseI32 s = some n →
      tokenizeWord d₁ s = .ok [.Number n]) ∧
    (s ∉ primNames → parseI32 s = none → dictLookup d₁ s = none →
      tokenizeWord d₁ s = .error (.UndefinedWord s)) := by
  refine ⟨?_, ?_, ?_⟩
  · intro h
    simp only [primNames, List.mem_cons, List.not_mem_nil, or_false] at h
    rcases h with rfl | rfl | rfl | rfl | rfl | rfl | rfl | rfl | rfl | rfl | rfl | rfl | rfl <;>
      exact ⟨rfl, ⟨_, rfl⟩⟩
  · intro h n hn
    unfold tokenizeWord
    rw [primOf?_eq_none h, hn]
  · intro h hn hd
    unfold tokenizeWord
    rw [primOf?_eq_none h, hn, hd]

/-- C3 witness: a dictionary entry named "/" is ignored in favour of the
primitive; a dictionary entry named "12" is ignored in favour of the
literal; "foo" resolves to nothing and yields its undefined-word error. -/
theorem tokenizer_precedence_witness :
    ("/" ∈ primNames ∧
      tokenizeWord [("/", [Token.Number 9])] "/" = tokenizeWord [] "/" ∧
      ∃ w, tokenizeWord [("/", [Token.Number 9])] "/" = .ok [.Builtin w]) ∧
    ("12" ∉ primNames ∧ parseI32 "12" = some 12 ∧
      tokenizeWord [("12", [Token.Number 9])] "12" = .ok [.Number 12]) ∧
    ("foo" ∉ primNames ∧ parseI32 "foo" = none ∧ dictLookup [] "foo" = none ∧
      tokenizeWord [] "foo" = .error (.UndefinedWord "foo")) :=
  ⟨⟨by decide, (tokenizer_precedence [("/", [Token.Number 9])] [] "/").1 (by decide)⟩,
   ⟨by decide, by decide,
     (tokenizer_precedence [("12", [Token.Number 9])] [] "12").2.1 (by decide) 12 (by decide)⟩,
   ⟨by decide, by decide, by decide,
     (tokenizer_precedence [] [] "foo").2.2 (by decide) (by decide) (by decide)⟩⟩

/-- C4 counterexample: at a = -2147483648 and b = -1 (b ≠ 0) the `/`
primitive does not push the truncating quotient as the claim states: the
division overflows i32 and the Rust `/` panics, so evaluation crashes and
nothing is pushed. -/
theorem min_div_neg_one_crashes :
    evalTokens [Token.Number (-2147483648), Token.Number (-1), Token.Builtin Word.Slash] [] ""
        = .crash "attempt to divide with overflow" [] ∧
    evalTokens [Token.Number (-2147483648), Token.Number (-1), Token.Builtin Word.Slash] [] ""
        ≠ .ok [2147483648] "" := by
  refine ⟨by decide, by decide⟩

/-- C4 (amended): for 32-bit a, b with b ≠ 0 and (a, b) ≠ (-2^31, -1), the
binary primitives pop b then a; `+`, `-`, `*` push the 32-bit (wrapping)
value of a OP b, `/` and `mod` push the quotient/remainder truncated toward
zero, and `/mod` pushes a mod b then a / b, leaving the remainder below the
quotient with the quotient on top. -/
theorem arith_ops (a b : Int) (s : List Int) (o : String)
    (_ha : -2147483648 ≤ a ∧ a ≤ 2147483647)
    (_hb : -2147483648 ≤ b ∧ b ≤ 2147483647)
    (hb0 : b ≠ 0)
    (hno : ¬(a = -2147483648 ∧ b = -1)) :
    evalTokens [Token.Number a, Token.Number b, Token.Builtin Word.Plus] s o
      = .ok (wrap32 (a + b) :: s) o ∧
    evalTokens [Token.Number a, Token.Number b, Token.Builtin Word.Minus] s o
      = .ok (wrap32 (a - b) :: s) o ∧
    evalTokens [Token.Number a, Token.Number b, Token.Builtin Word.Star] s o
      = .ok (wrap32 (a * b) :: s) o ∧
    evalTokens [Token.Number a, Token.Number b, Token.Builtin Word.Slash] s o
      = .ok (Int.tdiv a b :: s) o ∧
    evalTokens [Token.Number a, Token.Number b, Token.Builtin Word.Mod] s o
      = .ok (Int.tmod a b :: s) o ∧
    evalTokens [Token.Number a, Token.Number b, Token.Builtin Word.SlashMod] s o
      = .ok (Int.tdiv a b :: Int.tmod a b :: s) o := by
  refine ⟨?_, ?_, ?_, ?_, ?_, ?_⟩ <;>
    simp [evalTokens, evalToken, hb0, hno]

/-- C4 witness: the amended arithmetic contract at a = 7, b = -3 on the
empty stack. -/
theorem arith_ops_witness :
    ((-2147483648 ≤ (7 : Int) ∧ (7 : Int) ≤ 2147483647) ∧
     (-2147483648 ≤ (-3 : Int) ∧ (-3 : Int) ≤ 2147483647) ∧
     (-3 : Int) ≠ 0 ∧ ¬((7 : Int) = -2147483648 ∧ (-3 : Int) = -1)) ∧
    evalTokens [Token.Number 7, Token.Number (-3), Token.Builtin Word.Plus] [] ""
      = .ok (wrap32 (7 + -3) :: []) "" ∧
    evalTokens [Token.Number 7, Token.Number (-3), Token.Builtin Word.SlashMod] [] ""
      = .ok (Int.tdiv 7 (-3) :: Int.tmod 7 (-3) :: []) "" :=
  ⟨⟨by decide, by decide, by decide, by decide⟩,
   (arith_ops 7 (-3) [] "" (by decide) (by decide) (by decide) (by decide)).1,
   (arith_ops 7 (-3) [] "" (by decide) (by decide) (by decide) (by decide)).2.2.2.2.2⟩

/-- C5 counterexample: evaluating "42 emit" does not produce the single
character '*': the emit primitive appends a trailing space separator. -/
theorem emit_42_not_single_star :
    (Machine.default.eval "42 emit").1 ≠ .ok "*" := by decide

/-- C5 (amended): from the empty stack, evaluating "42 emit" succeeds and
produces "* " — the character '*' (code point 42) followed by the
single-space output separator — leaving the machine unchanged. -/
theorem emit_42_output :
    Machine.default.eval "42 emit" = (.ok "* ", Machine.default) := by decide

/-- C6: definition handling.  For a line consisting of the marker ':'
followed by `rest`: if no word follows, eval fails with the
malformed-definition error and the machine is unchanged; if a name and a
tokenizable body follow, eval returns empty output, the entry for the name
is inserted/overwritten with the tokenized body, and every other entry is
unchanged; in all cases (success or failure) the stack is untouched. -/
theorem eval_def_contract (m : Machine) (rest : String) :
    (splitWords rest = [] →
      m.eval (String.mk (':' :: rest.data))
        = (.err (.Static "no name specified for definition"), m)) ∧
    (∀ name body ts, splitWords rest = name :: body →
      tokenize m.dictionary body = .ok ts →
      (m.eval (String.mk (':' :: rest.data))).1 = .ok "" ∧
      dictLookup (m.eval (String.mk (':' :: rest.data))).2.dictionary name = some ts ∧
      (∀ w, w ≠ name →
        dictLookup (m.eval (String.mk (':' :: rest.data))).2.dictionary w
          = dictLookup m.dictionary w)) ∧
    (m.eval (String.mk (':' :: rest.data))).2.stack = m.stack := by
  have heval : m.eval (String.mk (':' :: rest.data)) =
      match m.eval_def rest with
      | .ok m' => (.ok "", m')
      | .error e => (.err e, m) := by
    unfold Machine.eval
    have hc : (String.mk (':' :: rest.data)).data.head? = some ':' := rfl
    rw [if_pos hc]
    rfl
  refine ⟨?_, ?_, ?_⟩
  · intro h0
    have hdef : m.eval_def rest = .error (.Static "no name specified for definition") := by
      simp only [Machine.eval_def, h0]
    rw [heval, hdef]
  · intro name body ts hsp htok
    have hdef : m.eval_def rest
        = .ok { m with dictionary := dictInsert m.dictionary name ts } := by
      simp only [Machine.eval_def, hsp, htok]
    rw [heval, hdef]
    refine ⟨rfl, ?_, ?_⟩
    · simp [dictInsert, dictLookup]
    · intro w hw
      simp [dictInsert, dictLookup, Ne.symm hw]
  · rw [heval]
    cases hd : m.eval_def rest with
    | error e => rfl
    | ok m' => exact eval_def_stack hd

/-- C6 witness: the definition contract at the line ": sq dup *" on the
default machine. -/
theorem eval_def_contract_witness :
    splitWords " sq dup *" = ["sq", "dup", "*"] ∧
    tokenize Machine.default.dictionary ["dup", "*"]
      = .ok [Token.Builtin Word.Dup, Token.Builtin Word.Star] ∧
    (Machine.default.eval (String.mk (':' :: (" sq dup *").data))).1 = .ok "" ∧
    dictLookup (Machine.default.eval (String.mk (':' :: (" sq dup *").data))).2.dictionary "sq"
      = some [Token.Builtin Word.Dup, Token.Builtin Word.Star] ∧
    (Machine.default.eval (String.mk (':' :: (" sq dup *").data))).2.stack
      = Machine.default.stack :=
  ⟨by decide, by decide,
   ((eval_def_contract Machine.default " sq dup *").2.1 "sq" ["dup", "*"]
      [Token.Builtin Word.Dup, Token.Builtin Word.Star] (by decide) (by decide)).1,
   ((eval_def_contract Machine.default " sq dup *").2.1 "sq" ["dup", "*"]
      [Token.Builtin Word.Dup, Token.Builtin Word.Star] (by decide) (by decide)).2.1,
   (eval_def_contract Machine.default " sq dup *").2.2⟩

/-- C7: no-rollback partial-failure policy.  Generally, when a prefix of the
token run succeeds and the next token fails, the whole run returns that
token's error with exactly the stack as mutated so far, regardless of the
tokens after it.  Concretely, evaluating "7 -1 emit" from the empty stack
fails at emit, and the stack afterwards is [7] — different from the stack
before the call. -/
theorem no_rollback_on_failure :
    (∀ (ts₁ : List Token) (t : Token) (ts₂ : List Token) (st : List Int) (o : String)
        (st₁ : List Int) (o₁ : String) (e : Error) (st₂ : List Int),
        evalTokens ts₁ st o = .ok st₁ o₁ →
        evalToken t st₁ o₁ = .err e st₂ →
        evalTokens (ts₁ ++ t :: ts₂) st o = .err e st₂) ∧
    ((Machine.default.eval "7 -1 emit").1 = .err (.Static "emit: out of bounds") ∧
      (Machine.default.eval "7 -1 emit").2.stack = [7] ∧
      Machine.default.stack = []) :=
  ⟨no_rollback_general, by decide, by decide, by decide⟩

/-- C7 witness: the general no-rollback statement at the run
[7, -1] ++ emit :: [5] from the empty stack. -/
theorem no_rollback_on_failure_witness :
    evalTokens [Token.Number 7, Token.Number (-1)] [] "" = .ok [-1, 7] "" ∧
    evalToken (Token.Builtin Word.Emit) [-1, 7] ""
      = .err (.Static "emit: out of bounds") [7] ∧
    evalTokens ([Token.Number 7, Token.Number (-1)]
        ++ Token.Builtin Word.Emit :: [Token.Number 5]) [] ""
      = .err (.Static "emit: out of bounds") [7] :=
  ⟨by decide, by decide,
   no_rollback_on_failure.1 [Token.Number 7, Token.Number (-1)]
     (Token.Builtin Word.Emit) [Token.Number 5] [] "" [-1, 7] ""
     (Error.Static "emit: out of bounds") [7] (by decide) (by decide)⟩

/-- C8: the claim says a negative argument to `spaces` either appends zero
characters or fails with a returned error.  Instead the code casts the i32
to usize, so popping -1 appends 2^64 - 1 space characters (plus the
separator space) — on real hardware this attempts an 18-exabyte allocation
and aborts the process. -/
theorem spaces_negative_cast :
    evalToken (Token.Builtin Word.Spaces) [-1] ""
      = .ok [] ("" ++ String.mk (List.replicate (i32ToUsize (-1)) ' ') ++ " ") ∧
    i32ToUsize (-1) = 18446744073709551615 := by
  refine ⟨rfl, by decide⟩

/-- C9 counterexample: the claim quantifies over every input line, but a
line starting with the definition marker is routed to definition handling,
where no word of the line is resolved as the name: evaluating ": foo"
succeeds even though "foo" (a word of the line) matches no primitive, no
integer literal and no dictionary entry. -/
theorem def_line_ignores_unresolvable_words :
    Unresolvable Machine.default.dictionary "foo" ∧
    "foo" ∈ splitWords ": foo" ∧
    (Machine.default.eval ": foo").1 = .ok "" := by
  refine ⟨by decide, by decide, by decide⟩

/-- C9 (amended): for every input line NOT starting with the definition
marker, if some word of the line is unresolvable then eval fails with an
undefined-word error (for an unresolvable word of the line) and the machine
— in particular the stack — is completely unchanged, even though earlier
tokens would have mutated it had they run. -/
theorem undefined_word_leaves_machine (m : Machine) (phrase : String)
    (hne : phrase.data.head? ≠ some ':')
    (hex : ∃ w ∈ splitWords phrase, Unresolvable m.dictionary w) :
    ∃ w', Unresolvable m.dictionary w' ∧
      m.eval phrase = (.err (.UndefinedWord w'), m) := by
  obtain ⟨w', hu, ht⟩ := tokenize_err_of_unresolvable m.dictionary (splitWords phrase) hex
  refine ⟨w', hu, ?_⟩
  unfold Machine.eval
  rw [if_neg hne]
  unfold Machine.eval_expr
  rw [ht]

/-- C9 witness: the amended statement at the line "1 foo" on the default
machine ("1" would have pushed, yet the machine is unchanged). -/
theorem undefined_word_leaves_machine_witness :
    ("1 foo").data.head? ≠ some ':' ∧
    (∃ w ∈ splitWords "1 foo", Unresolvable Machine.default.dictionary w) ∧
    (∃ w', Unresolvable Machine.default.dictionary w' ∧
      Machine.default.eval "1 foo" = (.err (.UndefinedWord w'), Machine.default)) :=
  ⟨by decide, ⟨"foo", by decide, by decide⟩,
   undefined_word_leaves_machine Machine.default "1 foo" (by decide)
     ⟨"foo", by decide, by decide⟩⟩

/-- C10: a decimal numeral whose value is outside the signed 32-bit range is
not tokenized as a Number: integer parsing fails, the word falls through to
dictionary lookup (an entry with that exact text would be spliced), and
with no such entry tokenization fails with an undefined-word error carrying
the numeral text. -/
theorem numeral_out_of_range (s : String) (v : Int) (d : Dict)
    (hdv : decimalValue? s = some v)
    (hout : v < -2147483648 ∨ 2147483647 < v) :
    parseI32 s = none ∧
    (dictLookup d s = none → tokenizeWord d s = .error (.UndefinedWord s)) ∧
    (∀ ts, dictLookup d s = some ts → tokenizeWord d s = .ok ts) := by
  have hp : parseI32 s = none := by
    have hr : ¬(-2147483648 ≤ v ∧ v ≤ 2147483647) := by omega
    simp only [parseI32, hdv]
    rw [if_neg hr]
  have hprim : primOf? s = none := by
    cases hq : primOf? s with
    | none => rfl
    | some w =>
      have : decimalValue? s = none := decimalValue?_primNames (primOf?_mem hq)
      rw [this] at hdv
      exact Option.noConfusion hdv
  refine ⟨hp, ?_, ?_⟩
  · intro hd
    unfold tokenizeWord
    rw [hprim, hp, hd]
  · intro ts hd
    unfold tokenizeWord
    rw [hprim, hp, hd]

/-- C10 witness: the numeral "2147483648" (one past i32::MAX) is not in the
default dictionary, so it parses to none and tokenizes to the
undefined-word error carrying "2147483648". -/
theorem numeral_out_of_range_witness :
    decimalValue? "2147483648" = some 2147483648 ∧
    ((2147483648 : Int) < -2147483648 ∨ (2147483647 : Int) < 2147483648) ∧
    dictLookup Machine.default.dictionary "2147483648" = none ∧
    parseI32 "2147483648" = none ∧
    tokenizeWord Machine.default.dictionary "2147483648"
      = .error (.UndefinedWord "2147483648") :=
  ⟨by decide, by decide, by decide,
   (numeral_out_of_range "2147483648" 2147483648 Machine.default.dictionary
      (by decide) (by decide)).1,
   (numeral_out_of_range "2147483648" 2147483648 Machine.default.dictionary
      (by decide) (by decide)).2.1 (by decide)⟩

end AForth
